import Mathlib

/-!
# Verification of the spoor structured-logging engine

Shallow embedding of the spoor logging library (Go) in Lean 4, together with
theorems settling the frozen claims about its specification.

Conventions of the embedding:
* Go `map[string]interface{}` field maps become association lists
  (`FieldMap`) with overwrite-on-insert semantics; iteration-order-dependent
  facts are always stated through `mapLookup`.
* Go `interface{}` values stored in field maps become the inductive `GoValue`.
* `time.Time` timestamps are abstracted to `Nat` (their value is never
  inspected by the code under verification).
* `float64` appears only in `RateSampler.ShouldSample`, where the generated
  value is merely compared (`<`) against the configured rate; the comparison
  of exact values is modelled over `ℚ`, with the draw constrained to `[0,1)`
  exactly as `rand.Float64` guarantees.
* Stateful code becomes explicit state passing; the asynchronous
  dispatcher (`AsyncLogger`) becomes a step function over `AsyncState`
  driven by a schedule of atomic actions, one action per Go `select` arm
  or API call, so that every goroutine interleaving of interest is a
  schedule.
-/

namespace Spoor

/-- A Go `interface{}` value as stored in a log entry's field map. -/
inductive GoValue where
  | vstr (s : String)
  | vint (n : Int)
  | vbool (b : Bool)
  deriving DecidableEq, Repr

/-- `LogLevel` from interfaces.go: `type LogLevel int`.  Kept as `Int`
because async_logger.go sends a sentinel entry with level `-1`. -/
abbrev LogLevel := Int

/-- `LevelDebug LogLevel = iota + 1` (interfaces.go). -/
def LevelDebug : LogLevel := 1

/-- `LevelInfo` (interfaces.go). -/
def LevelInfo : LogLevel := 2

/-- `LevelWarn` (interfaces.go). -/
def LevelWarn : LogLevel := 3

/-- `LevelError` (interfaces.go). -/
def LevelError : LogLevel := 4

/-- `LevelFatal` (interfaces.go). -/
def LevelFatal : LogLevel := 5

/-- A Go `map[string]interface{}` as an association list.  All facts that
could depend on iteration order are stated via `mapLookup`. -/
abbrev FieldMap := List (String × GoValue)

/-- Go map read `m[k]`. -/
def mapLookup (m : FieldMap) (k : String) : Option GoValue :=
  (m.find? (fun p => p.1 == k)).map (fun p => p.2)

/-- Go map write `m[k] = v`: overwrites any previous binding of `k`. -/
def mapInsert (m : FieldMap) (k : String) (v : GoValue) : FieldMap :=
  (k, v) :: m.filter (fun p => p.1 != k)

/-- The Go idiom `dst := make(map); for k, v := range src { dst[k] = v }`
starting from an empty `dst`: it produces a map with exactly the contents of
`src` (a fresh object; object identity is modelled separately, by `Heap`). -/
def mapCopy (m : FieldMap) : FieldMap := m

/-- The Go idiom `for k, v := range src { dst[k] = v }` merging `src` into an
already-populated `dst` (later writes win). -/
def mapUnion (dst src : FieldMap) : FieldMap :=
  src.foldl (fun acc p => mapInsert acc p.1 p.2) dst

/-- `LogEntry` from interfaces.go. -/
structure LogEntry where
  timestamp : Nat
  level : LogLevel
  message : String
  fields : FieldMap
  caller : String
  deriving DecidableEq, Repr

/- ### advanced.go: filters and samplers -/

/-- `contains` from advanced.go:
`return len(s) >= len(substr) && s[len(s)-len(substr):] == substr`. -/
def contains (s substr : String) : Bool :=
  decide (substr.data.length ≤ s.data.length) &&
    (s.data.drop (s.data.length - substr.data.length) == substr.data)

/-- The predicate the spec (and the function's own doc comment,
"contains checks if a string contains a substring") describes: `substr`
occurs in `s` at any position. -/
def goSubstring (s substr : String) : Bool :=
  (List.range (s.data.length + 1)).any (fun i => substr.data.isPrefixOf (s.data.drop i))

/-- `FieldFilter` from advanced.go. -/
structure FieldFilter where
  field : String
  value : GoValue
  operator : String
  deriving DecidableEq, Repr

/-- `FieldFilter.ShouldLog` from advanced.go: look the field up, then
dispatch on the operator; missing field rejects; the `"contains"` case
requires both sides to be strings; unknown operators accept. -/
def FieldFilter.ShouldLog (ff : FieldFilter) (entry : LogEntry) : Bool :=
  match mapLookup entry.fields ff.field with
  | none => false
  | some fieldValue =>
    match ff.operator with
    | "eq" => fieldValue == ff.value
    | "ne" => fieldValue != ff.value
    | "contains" =>
      match fieldValue, ff.value with
      | GoValue.vstr str, GoValue.vstr targetStr => contains str targetStr
      | _, _ => false
    | _ => true

/-- `RateSampler` from advanced.go (the `rand.Rand` source is externalised:
each call consumes one draw, passed explicitly). -/
structure RateSampler where
  rate : ℚ

/-- `RateSampler.ShouldSample` from advanced.go:
`return rs.rand.Float64() < rs.rate`, with `draw` the value produced by
`Float64()` (guaranteed to lie in `[0,1)`).  The counter update is elided:
it does not influence the result. -/
def RateSampler.ShouldSample (rs : RateSampler) (_entry : LogEntry) (draw : ℚ) : Bool :=
  decide (draw < rs.rate)

/- ### Object pool (src/unnamed/part_007) -/

/-- The allocation function handed to `sync.Pool` for `LogEntryPool`:
a zero entry with a fresh empty field map. -/
def newPoolLogEntry : LogEntry :=
  { timestamp := 0, level := 0, message := "", fields := [], caller := "" }

/-- `PutLogEntry` from part_007: `LogEntryPool.Put(entry)` — the entry is
stored in the pool exactly as passed, nothing is cleared here.  The pool is
modelled as the list of stored entries, most recently put first. -/
def PutLogEntry (pool : List LogEntry) (entry : LogEntry) : List LogEntry :=
  entry :: pool

/-- `GetLogEntry` from part_007: take a pooled entry (or allocate via the
pool's `New` when empty), then reset timestamp, level, message and caller and
delete every key of the fields map.  Returns the entry and the rest of the
pool. -/
def GetLogEntry (pool : List LogEntry) : LogEntry × List LogEntry :=
  let acquired :=
    match pool with
    | [] => (newPoolLogEntry, ([] : List LogEntry))
    | e :: es => (e, es)
  ({ acquired.1 with
      timestamp := 0, level := 0, message := "", caller := "", fields := [] },
   acquired.2)

/- ### BatchWriter (src/unnamed/part_002) -/

/-- Result of `BatchWriter.flushBatch`: the error handed back to the caller
and the increments applied to the `BatchMetrics` counters by this call. -/
structure FlushResult where
  err : Option String
  retryCount : Nat
  failedBatches : Nat
  totalBatches : Nat
  deriving DecidableEq, Repr

/-- The retry loop of `BatchWriter.flushBatch` (part_002).  The Go loop is

```
retries := 0
for retries <= MaxRetries {
  if err := writeBatch(batch); err != nil {
    lastErr = err; RetryCount++; retries++
    if retries <= MaxRetries { sleep; continue }
  } else { TotalBatches++; return nil }
}
FailedBatches++; return lastErr
```

`sinkErr i` is the error (if any) of the i-th `writeBatch` attempt; since an
attempt is made on every iteration and every non-final attempt failed, the
attempt index always equals `retries`.  The loop runs while
`retries ≤ MaxRetries`, i.e. for at most `MaxRetries + 1` iterations, so it
is rendered with `fuel = (MaxRetries + 1) - retries` remaining iterations
(`fuel = 0` exactly when the loop condition is false). -/
def flushRetryAux (sinkErr : Nat → Option String) :
    Nat → Nat → Option String → FlushResult
  | retries, 0, lastErr => ⟨lastErr, retries, 1, 0⟩
  | retries, fuel + 1, _lastErr =>
    match sinkErr retries with
    | some e => flushRetryAux sinkErr (retries + 1) fuel (some e)
    | none => ⟨none, retries, 0, 1⟩

/-- `BatchWriter.flushBatch` (part_002): empty batches return immediately
with no metric change; otherwise run the retry loop.  `maxRetries` is the Go
`int` config field. -/
def flushBatch (maxRetries : Int) (sinkErr : Nat → Option String)
    (batch : List LogEntry) : FlushResult :=
  if batch.isEmpty then ⟨none, 0, 0, 0⟩
  else flushRetryAux sinkErr 0 (maxRetries + 1).toNat none

/-- The mutable state of a `BatchWriter` (part_002): the pending batch, the
closed flag, the config fields read by the verified paths, and the metrics
counters.  The underlying writer's behaviour is passed separately (as the
per-attempt error oracle `sinkErr`), never stored. -/
structure BatchWriterState where
  batch : List LogEntry
  closed : Bool
  batchSize : Nat
  maxRetries : Int
  retryCount : Nat
  failedBatches : Nat
  totalBatches : Nat
  totalEntries : Nat
  deriving DecidableEq, Repr

/-- `NewBatchWriter` (part_002): empty pending batch, zeroed metrics. -/
def newBatchWriterState (batchSize : Nat) (maxRetries : Int) : BatchWriterState :=
  { batch := [], closed := false, batchSize := batchSize, maxRetries := maxRetries,
    retryCount := 0, failedBatches := 0, totalBatches := 0, totalEntries := 0 }

/-- `BatchWriter.flushUnsafe` (part_002): nothing to do on an empty batch;
otherwise copy the batch, clear the pending buffer (before any sink I/O —
so the buffer is empty afterwards even if the sink errors), and run
`flushBatch` on the copy, folding its metric increments into the state. -/
def flushUnsafe (sinkErr : Nat → Option String) (st : BatchWriterState) :
    BatchWriterState × Option String :=
  if st.batch.isEmpty then (st, none)
  else
    let r := flushBatch st.maxRetries sinkErr st.batch
    ({ st with
        batch := []
        retryCount := st.retryCount + r.retryCount
        failedBatches := st.failedBatches + r.failedBatches
        totalBatches := st.totalBatches + r.totalBatches }, r.err)

/-- `BatchWriter.Flush` (part_002): take the lock, call `flushUnsafe`; the
returned error goes to the explicit caller. -/
def BatchWriter.Flush (sinkErr : Nat → Option String) (st : BatchWriterState) :
    BatchWriterState × Option String :=
  flushUnsafe sinkErr st

/-- `BatchWriter.WriteEntry` (part_002): closed writers return
`ErrWriterClosed`; otherwise append under the lock, bump `TotalEntries`, and
flush synchronously when the pending buffer has reached `BatchSize`. -/
def BatchWriter.WriteEntry (sinkErr : Nat → Option String)
    (st : BatchWriterState) (entry : LogEntry) : BatchWriterState × Option String :=
  if st.closed then (st, some "writer is closed")
  else
    let st1 := { st with
                  batch := st.batch ++ [entry]
                  totalEntries := st.totalEntries + 1 }
    if st1.batchSize ≤ st1.batch.length then flushUnsafe sinkErr st1
    else (st1, none)

/-- A sequence of `WriteEntry` calls (the states after each prefix are the
states "after each WriteEntry returns"). -/
def writeEntrySeq (sinkErr : Nat → Option String) (st : BatchWriterState)
    (entries : List LogEntry) : BatchWriterState :=
  entries.foldl (fun s e => (BatchWriter.WriteEntry sinkErr s e).1) st

/- ### Hooks (interfaces.go, console_writer.go) -/

/-- The behaviour of one configured `Hook`: the levels it declares and
whether its `Fire` returns an error. -/
structure HookB where
  levels : List LogLevel
  fireErr : Bool
  deriving DecidableEq, Repr

/-- `CoreLogger.shouldFireHook` (console_writer.go): an empty `Levels()`
fires for every level, otherwise the entry's level must be listed. -/
def shouldFireHook (levels : List LogLevel) (level : LogLevel) : Bool :=
  levels.isEmpty || levels.any (fun hookLevel => hookLevel == level)

/- ### AsyncLogger (async_logger.go) -/

/-- The configuration and inherited `CoreLogger` data an `AsyncLogger`
reads on the verified paths: the level threshold, the channel capacity
(`BufferSize`), the logger's own field map, the hook list and the
caller-capture flag.  `getCaller()`'s result is externalised as the
constant `callerStr`. -/
structure AsyncCfg where
  threshold : LogLevel
  cap : Nat
  baseFields : FieldMap
  hooks : List HookB
  caller : Bool
  callerStr : String
  deriving Repr

/-- The shared state of an `AsyncLogger` with one worker (the configuration
of every claim about it): the channel contents, the shutdown flags, the
worker's local batch and liveness, the entries delivered to the sink (in
`WriteStructured` call order), the metrics counters, and the entries handed
to fired hooks. -/
structure AsyncState where
  queue : List LogEntry
  closed : Bool
  cancelled : Bool
  chanClosed : Bool
  batch : List LogEntry
  workerDone : Bool
  sink : List LogEntry
  totalLogs : Nat
  droppedLogs : Nat
  bufferSizeMetric : Nat
  flushCount : Nat
  hooksFired : List LogEntry
  deriving DecidableEq, Repr

/-- The state `NewAsyncLogger` starts from. -/
def initAsyncState : AsyncState :=
  { queue := [], closed := false, cancelled := false, chanClosed := false,
    batch := [], workerDone := false, sink := [], totalLogs := 0,
    droppedLogs := 0, bufferSizeMetric := 0, flushCount := 0, hooksFired := [] }

/-- The sentinel `LogEntry{Level: -1}` that `AsyncLogger.Sync` sends through
the data channel (all other fields are Go zero values). -/
def sentinelEntry : LogEntry :=
  { timestamp := 0, level := -1, message := "", fields := [], caller := "" }

/-- `AsyncLogger.log` (async_logger.go): level gate; early return when the
closed flag is set (before the entry is built, so nothing is counted, fired
or enqueued); build the entry (fresh field map ← logger fields ← call
fields, caller capture); fire matching hooks; then a non-blocking channel
send — on a full channel the entry is dropped and `DroppedLogs`
incremented. -/
def asyncLog (cfg : AsyncCfg) (s : AsyncState) (now : Nat) (level : LogLevel)
    (msg : String) (mfields : FieldMap) : AsyncState :=
  if level < cfg.threshold then s
  else if s.closed then s
  else
    let entry : LogEntry :=
      { timestamp := now, level := level, message := msg,
        fields := mapUnion (mapCopy cfg.baseFields) mfields,
        caller := if cfg.caller && cfg.callerStr != "" then cfg.callerStr else "" }
    let fired := (cfg.hooks.filter (fun hk => shouldFireHook hk.levels level)).map
      (fun _ => entry)
    let s1 := { s with hooksFired := s.hooksFired ++ fired }
    if s1.queue.length < cfg.cap then
      { s1 with
          queue := s1.queue ++ [entry]
          bufferSizeMetric := s1.bufferSizeMetric + 1 }
    else
      { s1 with droppedLogs := s1.droppedLogs + 1 }

/-- The worker's `case entry, ok := <-l.entryChan` arm (async_logger.go):
with a value available, append it to the local batch (no inspection of the
entry — sentinels are not distinguished), count it in `TotalLogs`, and flush
when the batch has reached 100; with the channel closed and drained
(`ok == false`), flush whatever remains in the batch and return. -/
def workerRecv (s : AsyncState) : AsyncState :=
  if s.workerDone then s
  else
    match s.queue with
    | entry :: rest =>
      let s1 := { s with
                   queue := rest
                   batch := s.batch ++ [entry]
                   totalLogs := s.totalLogs + 1 }
      if 100 ≤ s1.batch.length then
        { s1 with
            batch := []
            sink := s1.sink ++ s1.batch
            flushCount := s1.flushCount + 1 }
      else s1
    | [] =>
      if s.chanClosed then
        { s with
            batch := []
            sink := s.sink ++ s.batch
            flushCount := s.flushCount + (if s.batch.isEmpty then 0 else 1)
            workerDone := true }
      else s

/-- The worker's 10ms `ticker.C` arm: flush a non-empty local batch. -/
def workerTick (s : AsyncState) : AsyncState :=
  if s.workerDone then s
  else if s.batch.isEmpty then s
  else
    { s with
        batch := []
        sink := s.sink ++ s.batch
        flushCount := s.flushCount + 1 }

/-- The worker's `<-l.ctx.Done()` arm: once the context is cancelled this
arm is ready; it flushes a non-empty local batch and returns — it does NOT
drain the channel first. -/
def workerCtxDone (s : AsyncState) : AsyncState :=
  if s.workerDone then s
  else if s.cancelled then
    { s with
        batch := []
        sink := s.sink ++ s.batch
        flushCount := s.flushCount + (if s.batch.isEmpty then 0 else 1)
        workerDone := true }
  else s

/-- `AsyncLogger.Close` (async_logger.go) up to the worker join: the
compare-and-swap on the closed flag (a second call is a no-op), stopping the
ticker, cancelling the worker context, and closing the channel — in that
order, so cancellation is observable before (and while) the channel still
holds entries.  `wg.Wait()` and `writer.Close()` add nothing to `sink`. -/
def closeStep (s : AsyncState) : AsyncState :=
  if s.closed then s
  else { s with closed := true, cancelled := true, chanClosed := true }

/-- `AsyncLogger.Sync` (async_logger.go): a non-blocking send of the
sentinel `LogEntry{Level: -1}` on the same data channel; a full channel
drops it silently.  (`writer.Flush()` does not change which entries the
sink has received.) -/
def syncStep (cfg : AsyncCfg) (s : AsyncState) : AsyncState :=
  if s.queue.length < cfg.cap then { s with queue := s.queue ++ [sentinelEntry] }
  else s

/-- One atomic event of an `AsyncLogger` run: a producer's `log` call, one
arm of the worker's `select`, `Close`, or `Sync` (the periodic `flushLoop`
tick calls `Sync`).  A schedule (list of actions) is one interleaving of the
producer, the worker and the closer; an action whose Go counterpart is not
ready leaves the state unchanged. -/
inductive AsyncAction where
  | send (now : Nat) (level : LogLevel) (msg : String) (mfields : FieldMap)
  | recv
  | wtick
  | ctxDone
  | close
  | sync
  deriving Repr

/-- Apply one action. -/
def stepAsync (cfg : AsyncCfg) (s : AsyncState) : AsyncAction → AsyncState
  | AsyncAction.send now level msg mfields => asyncLog cfg s now level msg mfields
  | AsyncAction.recv => workerRecv s
  | AsyncAction.wtick => workerTick s
  | AsyncAction.ctxDone => workerCtxDone s
  | AsyncAction.close => closeStep s
  | AsyncAction.sync => syncStep cfg s

/-- Run a schedule. -/
def runAsync (cfg : AsyncCfg) (sched : List AsyncAction) (s : AsyncState) : AsyncState :=
  sched.foldl (stepAsync cfg) s

/- Concrete scenario for the end-to-end claim: capacity 10, one worker,
threshold Info, no hooks, no base fields. -/

/-- The claim's dispatcher configuration (queue capacity 10, 1 worker). -/
def c1Cfg : AsyncCfg :=
  { threshold := LevelInfo, cap := 10, baseFields := [], hooks := [],
    caller := true, callerStr := "main.go:10" }

/-- The i-th Info entry the producer's call builds under `c1Cfg`. -/
def c1Entry (i : Nat) : LogEntry :=
  { timestamp := i, level := LevelInfo, message := "m" ++ toString i,
    fields := [], caller := "main.go:10" }

/-- The five sequential Info-level producer calls. -/
def c1Sends : List AsyncAction :=
  [AsyncAction.send 1 LevelInfo "m1" [], AsyncAction.send 2 LevelInfo "m2" [],
   AsyncAction.send 3 LevelInfo "m3" [], AsyncAction.send 4 LevelInfo "m4" [],
   AsyncAction.send 5 LevelInfo "m5" []]

/-- A schedule realisable in Go: the worker is idle until `Close` has
cancelled the context and closed the channel; its `select` then has both
the receive arm and the `ctx.Done()` arm ready and is free to pick the
latter. -/
def c1BadSchedule : List AsyncAction :=
  c1Sends ++ [AsyncAction.close, AsyncAction.ctxDone]

/-- The drain-to-completion schedule: after `Close`, the worker's `select`
happens to keep picking the receive arm until the closed channel is empty. -/
def c1GoodSchedule : List AsyncAction :=
  c1Sends ++ [AsyncAction.close, AsyncAction.recv, AsyncAction.recv,
    AsyncAction.recv, AsyncAction.recv, AsyncAction.recv, AsyncAction.recv]

/- ### CoreLogger derivation (console_writer.go) — heap model

Map object identity matters for the `WithField` isolation claim, so field
maps live in an explicit heap of map objects and a logger holds a reference
into it.  `WithField` allocates a NEW map object (Go: `make` + copy loop +
`newFields[key] = value`) and the derived logger value carries the new
reference while sharing every other component. -/

/-- A heap of field-map objects; a reference is an index. -/
structure Heap where
  maps : List FieldMap
  deriving Repr

/-- Allocate a fresh map object (`make(map[string]interface{})` populated
before escaping); returns the heap and the new reference. -/
def Heap.alloc (h : Heap) (m : FieldMap) : Heap × Nat :=
  ({ maps := h.maps ++ [m] }, h.maps.length)

/-- Read a map object. -/
def Heap.getMap (h : Heap) (r : Nat) : FieldMap :=
  (h.maps.get? r).getD []

/-- Overwrite a map object in place (models raw mutation of the shared
object, e.g. a later `l.fields[k] = v` through whichever logger holds `r`). -/
def Heap.setMap (h : Heap) (r : Nat) (m : FieldMap) : Heap :=
  { maps := h.maps.set r m }

/-- `CoreLogger` (console_writer.go) with the field map held by reference;
writer, formatter and hooks are opaque shared components, represented by
identity so that sharing is expressible. -/
structure CoreLoggerRef where
  writer : Nat
  level : LogLevel
  formatter : Nat
  hooks : List Nat
  fieldsRef : Nat
  caller : Bool
  deriving DecidableEq, Repr

/-- `CoreLogger.WithField` (console_writer.go): under the read lock, build
`newFields` as a copy of the logger's map extended with `key ↦ value`, and
return a new logger value sharing writer, level, formatter, hooks and the
caller flag, but holding the freshly allocated map. -/
def CoreLoggerRef.WithField (h : Heap) (l : CoreLoggerRef) (key : String)
    (value : GoValue) : Heap × CoreLoggerRef :=
  let newFields := mapInsert (mapCopy (h.getMap l.fieldsRef)) key value
  let alloc := h.alloc newFields
  (alloc.1, { l with fieldsRef := alloc.2 })

/-- `CoreLogger.WithFields` (console_writer.go): same copy-then-extend shape
with a map of additions. -/
def CoreLoggerRef.WithFields (h : Heap) (l : CoreLoggerRef) (fields : FieldMap) :
    Heap × CoreLoggerRef :=
  let newFields := mapUnion (mapCopy (h.getMap l.fieldsRef)) fields
  let alloc := h.alloc newFields
  (alloc.1, { l with fieldsRef := alloc.2 })

/-- `CoreLogger.WithError` (console_writer.go):
`l.WithField("error", err.Error())`. -/
def CoreLoggerRef.WithError (h : Heap) (l : CoreLoggerRef) (errMsg : String) :
    Heap × CoreLoggerRef :=
  l.WithField h "error" (GoValue.vstr errMsg)

/-- The field map of an entry produced by `CoreLogger.log`
(console_writer.go): a fresh map ← the logger's fields ← the method fields
(`nil` for `Debug/Info/Warn/Error/Fatal`). -/
def logEntryFields (h : Heap) (l : CoreLoggerRef) (mfields : FieldMap) : FieldMap :=
  mapUnion (mapCopy (h.getMap l.fieldsRef)) mfields

/- ### CoreLogger.log / AdvancedLogger.log outcomes (console_writer.go,
advanced.go) — error-handling model for the facade -/

/-- The externally observable outcome of one facade `log` call: the entries
successfully written to the (structured) writer, how many times an error
counter was incremented (`MetricsCollector.RecordError` calls), how many
times a drop was recorded, and the error surfaced to the caller — the Go
methods return nothing, so the last component is `none` by the shape of the
source. -/
structure LogOutcome where
  sinkWrites : List LogEntry
  hookFires : Nat
  errorIncs : Nat
  droppedIncs : Nat
  callerErr : Option String
  deriving DecidableEq, Repr

/-- Build the entry a facade `log` call constructs. -/
def buildEntry (now : Nat) (level : LogLevel) (msg : String) (baseFields : FieldMap)
    (mfields : FieldMap) (callerFlag : Bool) (callerStr : String) : LogEntry :=
  { timestamp := now, level := level, message := msg,
    fields := mapUnion (mapCopy baseFields) mfields,
    caller := if callerFlag && callerStr != "" then callerStr else "" }

/-- `CoreLogger.log` (console_writer.go), structured-writer branch: level
gate, entry build, hooks fired with `hook.Fire`'s error DISCARDED, then
`WriteStructured` with its error DISCARDED.  `CoreLogger` has no metrics
field at all, so no call can increment an error counter, and the method
returns nothing. -/
def coreLog (now : Nat) (threshold : LogLevel) (baseFields : FieldMap)
    (callerFlag : Bool) (callerStr : String) (hooks : List HookB)
    (writerFails : Bool) (level : LogLevel) (msg : String) (mfields : FieldMap) :
    LogOutcome :=
  if level < threshold then ⟨[], 0, 0, 0, none⟩
  else
    let entry := buildEntry now level msg baseFields mfields callerFlag callerStr
    let fired := (hooks.filter (fun hk => shouldFireHook hk.levels level)).length
    ⟨if writerFails then [] else [entry], fired, 0, 0, none⟩

/-- `AdvancedLogger.log` (advanced.go): level gate; entry build; filter then
sampler (a rejection records a drop only when metrics are enabled);
`RecordLog`; hooks — `if err := hook.Fire(entry); err != nil && al.metrics != nil`
increments the error counter; then `WriteStructured`, whose error likewise
increments the counter only when metrics are enabled.  Returns nothing. -/
def advancedLog (now : Nat) (threshold : LogLevel) (baseFields : FieldMap)
    (callerFlag : Bool) (callerStr : String)
    (filt samp : Option (LogEntry → Bool)) (metricsOn : Bool)
    (hooks : List HookB) (writerFails : Bool)
    (level : LogLevel) (msg : String) (mfields : FieldMap) : LogOutcome :=
  if level < threshold then ⟨[], 0, 0, 0, none⟩
  else
    let entry := buildEntry now level msg baseFields mfields callerFlag callerStr
    if (match filt with | some f => !(f entry) | none => false) then
      ⟨[], 0, 0, if metricsOn then 1 else 0, none⟩
    else if (match samp with | some sp => !(sp entry) | none => false) then
      ⟨[], 0, 0, if metricsOn then 1 else 0, none⟩
    else
      let fired := hooks.filter (fun hk => shouldFireHook hk.levels level)
      let hookIncs := if metricsOn then fired.countP (fun hk => hk.fireErr) else 0
      let writeIncs := if writerFails && metricsOn then 1 else 0
      ⟨if writerFails then [] else [entry], fired.length, hookIncs + writeIncs, 0, none⟩

/- ### Concrete instances used by counterexamples and witnesses -/

/-- A fresh `BatchWriter` (batch size 1000, `MaxRetries` 3, the defaults)
holding one pending entry. -/
def c2St : BatchWriterState :=
  { newBatchWriterState 1000 3 with batch := [sentinelEntry] }

/-- An `AsyncLogger` state after `Close()` has returned (queue drained,
worker exited, closed flag set) with a zero dropped-logs counter. -/
def c3ClosedState : AsyncState :=
  { initAsyncState with
      closed := true
      cancelled := true
      chanClosed := true
      workerDone := true }

/-- A `FieldFilter` with operator `"contains"` configured for value `"ab"`
on field `"x"`. -/
def c4Filter : FieldFilter := ⟨"x", GoValue.vstr "ab", "contains"⟩

/-- An entry whose field `"x"` holds the string `"abcd"`, which contains
`"ab"` as a substring (at position 0) but does not end with it. -/
def c4Entry : LogEntry := ⟨0, LevelInfo, "", [("x", GoValue.vstr "abcd")], ""⟩

/-- An entry with a populated field map, as handed to `PutLogEntry`. -/
def c8DirtyEntry : LogEntry :=
  ⟨7, LevelError, "boom", [("k", GoValue.vstr "v")], "a.go:1"⟩

/- ### Helper lemmas: association-list maps -/

theorem mapUnion_nil (m : FieldMap) : mapUnion m [] = m := rfl

theorem mapCopy_eq (m : FieldMap) : mapCopy m = m := rfl

theorem mapLookup_insert_self (m : FieldMap) (k : String) (v : GoValue) :
    mapLookup (mapInsert m k v) k = some v := by
  simp [mapLookup, mapInsert, List.find?]

theorem find_filter_ne (m : FieldMap) (k k2 : String) (h : k2 ≠ k) :
    List.find? (fun p => p.1 == k2) (m.filter (fun p => p.1 != k)) =
      List.find? (fun p => p.1 == k2) m := by
  induction m with
  | nil => rfl
  | cons p t ih =>
    by_cases hp : p.1 = k
    · have h1 : (p.1 != k) = false := by simp [hp]
      have h2 : (p.1 == k2) = false := by
        simp [hp]
        exact fun hc => h hc.symm
      simp [List.filter, List.find?, h1, h2, ih]
    · have h1 : (p.1 != k) = true := by simp [hp]
      by_cases hq : p.1 = k2
      · have h2 : (p.1 == k2) = true := by simp [hq]
        simp [List.filter, List.find?, h1, h2]
      · have h2 : (p.1 == k2) = false := by simp [hq]
        simp [List.filter, List.find?, h1, h2, ih]

theorem mapLookup_insert_ne (m : FieldMap) (k k2 : String) (v : GoValue)
    (h : k2 ≠ k) : mapLookup (mapInsert m k v) k2 = mapLookup m k2 := by
  have hk : (k == k2) = false := by
    simp
    exact fun hc => h hc.symm
  simp [mapLookup, mapInsert, List.find?, hk, find_filter_ne m k k2 h]

/- ### Helper lemmas: the heap of field maps -/

theorem getMap_alloc_old (h : Heap) (m : FieldMap) (r : Nat)
    (hr : r < h.maps.length) : (h.alloc m).1.getMap r = h.getMap r := by
  simp [Heap.alloc, Heap.getMap, List.getElem?_append_left hr]

theorem getMap_alloc_new (h : Heap) (m : FieldMap) :
    (h.alloc m).1.getMap (h.alloc m).2 = m := by
  simp [Heap.alloc, Heap.getMap, List.getElem?_concat_length]

theorem alloc_ref_fresh (h : Heap) (m : FieldMap) (r : Nat)
    (hr : r < h.maps.length) : (h.alloc m).2 ≠ r := by
  simp [Heap.alloc]
  omega

theorem getMap_set_ne (h : Heap) (r1 r2 : Nat) (m : FieldMap) (hne : r1 ≠ r2) :
    (h.setMap r1 m).getMap r2 = h.getMap r2 := by
  simp [Heap.setMap, Heap.getMap, List.getElem?_set_ne hne]

/- ### C4, C5, C8 -/

/-- C4: for the `"contains"` operator the spec (and the helper's own doc
comment) promise substring matching at any position, but `contains` in
advanced.go tests only the SUFFIX: `FieldFilter.ShouldLog` rejects the entry
whose field `"x" = "abcd"` against value `"ab"` although `"ab"` is a
substring of `"abcd"`, and accepts value `"cd"` only because it is a
suffix. -/
theorem C4_contains_operator_checks_suffix_only :
    FieldFilter.ShouldLog c4Filter c4Entry = false ∧
    goSubstring "abcd" "ab" = true ∧
    contains "abcd" "ab" = false ∧
    FieldFilter.ShouldLog ⟨"x", GoValue.vstr "cd", "contains"⟩ c4Entry = true := by
  decide

/-- C5: `RateSampler.ShouldSample` compares the uniform draw (in `[0,1)`)
strictly against the rate, so rate 0.0 rejects every draw and rate 1.0
accepts every draw — exactly, for all draws. -/
theorem C5_sampler_boundary_exact (entry : LogEntry) (draw : ℚ)
    (h0 : 0 ≤ draw) (h1 : draw < 1) :
    RateSampler.ShouldSample ⟨0⟩ entry draw = false ∧
    RateSampler.ShouldSample ⟨1⟩ entry draw = true := by
  constructor
  · simp [RateSampler.ShouldSample]
    linarith
  · simp [RateSampler.ShouldSample]
    linarith

/-- Witness for C5 at draw 1/2. -/
theorem C5_sampler_boundary_exact_witness :
    (0 : ℚ) ≤ 1 / 2 ∧ (1 : ℚ) / 2 < 1 ∧
    (RateSampler.ShouldSample ⟨0⟩ newPoolLogEntry (1 / 2) = false ∧
     RateSampler.ShouldSample ⟨1⟩ newPoolLogEntry (1 / 2) = true) :=
  ⟨by norm_num, by norm_num,
   C5_sampler_boundary_exact newPoolLogEntry (1 / 2) (by norm_num) (by norm_num)⟩

/-- C8 counterexample: `PutLogEntry` stores the entry in the pool exactly as
passed — the pooled object's field map is NOT cleared before the object is
returned to the pool (the claim says it is; the reset happens in
`GetLogEntry` instead). -/
theorem C8_counterexample_put_does_not_clear :
    PutLogEntry [] c8DirtyEntry = [c8DirtyEntry] ∧
    ((PutLogEntry [] c8DirtyEntry).headD newPoolLogEntry).fields ≠ [] := by
  decide

/-- C8 amended: `PutLogEntry` returns the object to the pool unmodified;
`GetLogEntry` performs the reset on acquisition, returning an entry with
zeroed timestamp and level, empty message, caller and field map, regardless
of the state the object had when it was last put. -/
theorem C8_get_returns_reset_entry (pool : List LogEntry) (e : LogEntry) :
    (GetLogEntry (PutLogEntry pool e)).1 = newPoolLogEntry ∧
    (PutLogEntry pool e).headD newPoolLogEntry = e := by
  constructor
  · rfl
  · rfl

/- ### Helper lemmas: the flushBatch retry loop -/

/-- If every attempt fails, the loop runs its full fuel, increments the
retry counter once per failed attempt, marks the batch failed and returns
the error of the last attempt. -/
theorem flushRetryAux_all_fail (errs : Nat → Option String) (f : Nat → String)
    (herrs : ∀ i, errs i = some (f i)) :
    ∀ (fuel retries : Nat) (lastErr : Option String),
      flushRetryAux errs retries (fuel + 1) lastErr =
        ⟨some (f (retries + fuel)), retries + fuel + 1, 1, 0⟩ := by
  intro fuel
  induction fuel with
  | zero =>
    intro retries lastErr
    simp [flushRetryAux, herrs retries]
  | succ n ih =>
    intro retries lastErr
    have harith : retries + 1 + n = retries + (n + 1) := by omega
    calc flushRetryAux errs retries (n + 1 + 1) lastErr
        = flushRetryAux errs (retries + 1) (n + 1) (some (f retries)) := by
          simp [flushRetryAux, herrs retries]
      _ = ⟨some (f (retries + 1 + n)), retries + 1 + n + 1, 1, 0⟩ := ih (retries + 1) _
      _ = ⟨some (f (retries + (n + 1))), retries + (n + 1) + 1, 1, 0⟩ := by rw [harith]

/-- If the first `j` attempts fail and attempt `j` succeeds within the
fuel budget, the loop returns success with `j` retry-counter increments and
no failed batch. -/
theorem flushRetryAux_succeeds (errs : Nat → Option String) :
    ∀ (j retries fuel : Nat) (lastErr : Option String),
      (∀ i : Nat, retries ≤ i → i < retries + j → (errs i).isSome) →
      errs (retries + j) = none → j < fuel →
      flushRetryAux errs retries fuel lastErr = ⟨none, retries + j, 0, 1⟩ := by
  intro j
  induction j with
  | zero =>
    intro retries fuel lastErr _ hsucc hfuel
    match fuel, hfuel with
    | fl + 1, _ =>
      simp at hsucc
      simp [flushRetryAux, hsucc]
  | succ n ih =>
    intro retries fuel lastErr hfail hsucc hfuel
    match fuel, hfuel with
    | fl + 1, hfuel =>
      have hr : (errs retries).isSome := hfail retries (le_refl _) (by omega)
      obtain ⟨e, he⟩ := Option.isSome_iff_exists.mp hr
      have step : flushRetryAux errs retries (fl + 1) lastErr =
          flushRetryAux errs (retries + 1) fl (some e) := by
        simp [flushRetryAux, he]
      rw [step]
      have harith : retries + 1 + n = retries + (n + 1) := by omega
      have := ih (retries + 1) fl (some e)
        (fun i h1 h2 => hfail i (by omega) (by omega))
        (by rw [harith]; exact hsucc) (by omega)
      rw [this, harith]

/-- C2 counterexample: with `MaxRetries = 3` (the default) and a sink that
fails every attempt — i.e. fails `MaxRetries + 1` consecutive times — the
flush of a non-empty batch leaves `RetryCount = 4 = MaxRetries + 1`, not
`MaxRetries` as the claim states (each of the `MaxRetries + 1` failed
attempts increments the counter). -/
theorem C2_counterexample_retryCount_exceeds_maxRetries :
    (BatchWriter.Flush (fun _ => some "sink error") c2St).1.retryCount = 4 ∧
    ¬ (BatchWriter.Flush (fun _ => some "sink error") c2St).1.retryCount = 3 ∧
    c2St.maxRetries = 3 := by
  constructor
  · rfl
  · constructor
    · decide
    · rfl

/-- C2 amended: for a flush of a non-empty batch on a fresh `BatchWriter`
with `MaxRetries = m ≥ 1`: a sink failing the first `m - 1` attempts and
succeeding on attempt `m - 1` yields `FailedBatches = 0`, no error to the
`Flush` caller and `RetryCount = m - 1`; a sink failing every attempt
(hence `m + 1` consecutive failures) yields `FailedBatches = 1`,
`RetryCount = m + 1` (not `m`: one increment per failed attempt), and the
error of the last attempt (attempt `m`) is returned to the explicit `Flush`
caller. -/
theorem C2_retry_semantics_amended (m : Nat) (hm : 1 ≤ m)
    (st : BatchWriterState) (hb : st.batch ≠ []) (hmr : st.maxRetries = (m : Int))
    (hrc : st.retryCount = 0) (hfb : st.failedBatches = 0) :
    (∀ errs : Nat → Option String,
      (∀ i, i + 1 < m → (errs i).isSome) → errs (m - 1) = none →
        (BatchWriter.Flush errs st).1.failedBatches = 0 ∧
        (BatchWriter.Flush errs st).2 = none ∧
        (BatchWriter.Flush errs st).1.retryCount = m - 1) ∧
    (∀ f : Nat → String,
        (BatchWriter.Flush (fun i => some (f i)) st).1.failedBatches = 1 ∧
        (BatchWriter.Flush (fun i => some (f i)) st).1.retryCount = m + 1 ∧
        (BatchWriter.Flush (fun i => some (f i)) st).2 = some (f m)) := by
  have hbe : st.batch.isEmpty = false := by
    cases hbatch : st.batch with
    | nil => exact absurd hbatch hb
    | cons a t => rfl
  have hfuel : (st.maxRetries + 1).toNat = m + 1 := by
    rw [hmr]; omega
  constructor
  · intro errs hfail hsucc
    have hrun : flushRetryAux errs 0 (m + 1) none = ⟨none, 0 + (m - 1), 0, 1⟩ :=
      flushRetryAux_succeeds errs (m - 1) 0 (m + 1) none
        (fun i h1 h2 => hfail i (by omega))
        (by simpa using hsucc) (by omega)
    simp [BatchWriter.Flush, flushUnsafe, flushBatch, hbe, hfuel, hrun, hrc, hfb]
  · intro f
    have hrun : flushRetryAux (fun i => some (f i)) 0 (m + 1) none =
        ⟨some (f (0 + m)), 0 + m + 1, 1, 0⟩ :=
      flushRetryAux_all_fail (fun i => some (f i)) f (fun _ => rfl) m 0 none
    simp [BatchWriter.Flush, flushUnsafe, flushBatch, hbe, hfuel, hrun, hrc, hfb]

/-- Witness for C2 amended at `m = 3`, a fresh writer with one pending
entry, a sink failing twice then succeeding, and a sink failing always. -/
theorem C2_retry_semantics_amended_witness :
    ((1 ≤ 3) ∧ c2St.batch ≠ [] ∧ c2St.maxRetries = ((3 : Nat) : Int) ∧
      c2St.retryCount = 0 ∧ c2St.failedBatches = 0) ∧
    ((BatchWriter.Flush (fun i => if i < 2 then some "e" else none) c2St).1.failedBatches = 0 ∧
     (BatchWriter.Flush (fun i => if i < 2 then some "e" else none) c2St).2 = none ∧
     (BatchWriter.Flush (fun i => if i < 2 then some "e" else none) c2St).1.retryCount = 3 - 1) ∧
    ((BatchWriter.Flush (fun _ => some "e") c2St).1.failedBatches = 1 ∧
     (BatchWriter.Flush (fun _ => some "e") c2St).1.retryCount = 3 + 1 ∧
     (BatchWriter.Flush (fun _ => some "e") c2St).2 = some "e") :=
  ⟨⟨by decide, by decide, by decide, rfl, rfl⟩,
   (C2_retry_semantics_amended 3 (by decide) c2St (by decide) (by decide) rfl rfl).1
     (fun i => if i < 2 then some "e" else none)
     (by intro i hi
         have h2 : i < 2 := by omega
         simp [h2])
     (by rfl),
   (C2_retry_semantics_amended 3 (by decide) c2St (by decide) (by decide) rfl rfl).2
     (fun _ => "e")⟩

/- ### C6: BatchWriter pending-buffer invariant -/

/-- One `WriteEntry` call preserves `|batch| < batchSize` (for any sink
behaviour, including a failing sink: `flushUnsafe` clears the buffer before
any sink I/O) and never changes the configured batch size or flips the
closed flag. -/
theorem writeEntry_preserves_bound (errs : Nat → Option String)
    (st : BatchWriterState) (e : LogEntry) (hbs : 1 ≤ st.batchSize)
    (hlt : st.batch.length < st.batchSize) :
    (BatchWriter.WriteEntry errs st e).1.batch.length < st.batchSize ∧
    (BatchWriter.WriteEntry errs st e).1.batchSize = st.batchSize := by
  unfold BatchWriter.WriteEntry
  by_cases hc : st.closed = true
  · simp [hc]
    omega
  · have hc2 : st.closed = false := by
      cases h : st.closed
      · rfl
      · exact absurd h hc
    by_cases hfull : st.batchSize ≤ st.batch.length + 1
    · have hne : ((st.batch ++ [e]).isEmpty) = false := by
        cases st.batch <;> rfl
      simp [hc2, hfull, flushUnsafe, hne]
      omega
    · simp [hc2, hfull]
      omega

/-- C6: for every sequence of `WriteEntry` calls on a `BatchWriter` with
`batchSize ≥ 1`, starting from any reachable state whose pending buffer is
below `batchSize` (in particular the fresh writer's empty buffer), the
pending buffer holds fewer than `batchSize` entries after each call — and
the call that makes the buffer reach `batchSize` synchronously flushes it
to empty, even when the sink errors on every attempt. -/
theorem C6_batch_buffer_invariant (errs : Nat → Option String)
    (st : BatchWriterState) (hbs : 1 ≤ st.batchSize)
    (hlt : st.batch.length < st.batchSize) :
    (∀ entries : List LogEntry,
      (writeEntrySeq errs st entries).batch.length < st.batchSize ∧
      (writeEntrySeq errs st entries).batchSize = st.batchSize) ∧
    (∀ e : LogEntry, st.closed = false → st.batch.length + 1 = st.batchSize →
      (BatchWriter.WriteEntry errs st e).1.batch = []) := by
  constructor
  · intro entries
    induction entries generalizing st with
    | nil => exact ⟨hlt, rfl⟩
    | cons e rest ih =>
      have hstep := writeEntry_preserves_bound errs st e hbs hlt
      have hbs2 : 1 ≤ (BatchWriter.WriteEntry errs st e).1.batchSize := by
        rw [hstep.2]; exact hbs
      have hlt2 : (BatchWriter.WriteEntry errs st e).1.batch.length <
          (BatchWriter.WriteEntry errs st e).1.batchSize := by
        rw [hstep.2]; exact hstep.1
      have hrest := ih ((BatchWriter.WriteEntry errs st e).1) hbs2 hlt2
      simp only [writeEntrySeq, List.foldl_cons] at hrest ⊢
      exact ⟨lt_of_lt_of_eq hrest.1 hstep.2, hrest.2.trans hstep.2⟩
  · intro e hc hreach
    unfold BatchWriter.WriteEntry
    have hfull : st.batchSize ≤ st.batch.length + 1 := by omega
    have hne : ((st.batch ++ [e]).isEmpty) = false := by
      cases st.batch <;> rfl
    simp [hc, hfull, flushUnsafe, hne]

/-- Witness for C6: batch size 2, an always-failing sink, three writes. -/
theorem C6_batch_buffer_invariant_witness :
    (1 ≤ (newBatchWriterState 2 3).batchSize ∧
     (newBatchWriterState 2 3).batch.length < (newBatchWriterState 2 3).batchSize) ∧
    (writeEntrySeq (fun _ => some "e") (newBatchWriterState 2 3)
        [c8DirtyEntry, c8DirtyEntry, c8DirtyEntry]).batch.length <
      (newBatchWriterState 2 3).batchSize :=
  ⟨⟨by decide, by decide⟩,
   ((C6_batch_buffer_invariant (fun _ => some "e") (newBatchWriterState 2 3)
      (by decide) (by decide)).1 [c8DirtyEntry, c8DirtyEntry, c8DirtyEntry]).1⟩

/- ### C1, C3, C10: the AsyncLogger dispatcher -/

/-- C1: in the claim's scenario (capacity 10, 1 worker, 5 sequential Info
calls, then `Close()`), the schedule in which the worker's `select` takes
the then-ready `ctx.Done()` arm — `Close` cancels the context BEFORE the
channel is drained — makes the worker exit with all 5 entries still in the
channel: the sink receives none of them, although all 5 were enqueued
before closing (the claim and the spec say all 5 reach the sink, in order;
the worker's drain-on-channel-close branch shows that is the intent). -/
theorem C1_close_cancel_race_loses_enqueued_entries :
    (runAsync c1Cfg (c1Sends ++ [AsyncAction.close]) initAsyncState).queue =
      [c1Entry 1, c1Entry 2, c1Entry 3, c1Entry 4, c1Entry 5] ∧
    (runAsync c1Cfg c1BadSchedule initAsyncState).workerDone = true ∧
    (runAsync c1Cfg c1BadSchedule initAsyncState).sink = [] ∧
    (runAsync c1Cfg c1BadSchedule initAsyncState).droppedLogs = 0 := by
  refine ⟨?_, rfl, rfl, rfl⟩
  decide

/-- The intended behaviour is reachable: under the schedule where the
worker keeps receiving until the closed channel is drained, the sink gets
exactly the 5 entries, in the original call order. -/
theorem asyncClose_drain_schedule_delivers_in_order :
    (runAsync c1Cfg c1GoodSchedule initAsyncState).sink =
      [c1Entry 1, c1Entry 2, c1Entry 3, c1Entry 4, c1Entry 5] ∧
    (runAsync c1Cfg c1GoodSchedule initAsyncState).workerDone = true ∧
    (runAsync c1Cfg c1GoodSchedule initAsyncState).queue = [] := by
  refine ⟨?_, rfl, rfl⟩
  decide

/-- C3 counterexample: a log call after `Close()` has returned leaves the
state completely unchanged — in particular the dropped-logs counter is NOT
incremented (it counts only queue-full drops), contradicting the claim
that the drop is counted. -/
theorem C3_counterexample_postclose_drop_not_counted :
    asyncLog c1Cfg c3ClosedState 3 LevelInfo "late" [] = c3ClosedState ∧
    (asyncLog c1Cfg c3ClosedState 3 LevelInfo "late" []).droppedLogs = 0 := by
  constructor
  · rfl
  · rfl

/-- C3 amended: every log call made after the closed flag is set is
silently dropped — `AsyncLogger.log` returns (void, so no error reaches the
caller) before building the entry, so nothing reaches the channel, the
sink or the hooks — but the drop is NOT counted in the dropped-logs
counter. -/
theorem C3_postclose_drop_silent_and_uncounted (cfg : AsyncCfg) (s : AsyncState)
    (now : Nat) (level : LogLevel) (msg : String) (mfields : FieldMap)
    (hclosed : s.closed = true) :
    asyncLog cfg s now level msg mfields = s := by
  unfold asyncLog
  split
  · rfl
  · simp [hclosed]

/-- Witness for C3 at the closed state. -/
theorem C3_postclose_drop_silent_and_uncounted_witness :
    c3ClosedState.closed = true ∧
    asyncLog c1Cfg c3ClosedState 9 LevelError "after-close" [] = c3ClosedState :=
  ⟨rfl, C3_postclose_drop_silent_and_uncounted c1Cfg c3ClosedState 9 LevelError
    "after-close" [] rfl⟩

/-- C10: a `Sync()` call on a non-full queue enqueues the sentinel
`LogEntry{Level: -1}` at the tail of the same data channel the real entries
use; the worker's receive arm appends it to its local batch and counts it
in `TotalLogs` without inspecting it, and the next batch flush writes it to
the sink exactly like a real entry. -/
theorem C10_sync_sentinel_through_data_channel (cfg : AsyncCfg) (s : AsyncState)
    (hwd : s.workerDone = false) (hq : s.queue.length < cfg.cap) :
    ((syncStep cfg s).queue = s.queue ++ [sentinelEntry] ∧
      sentinelEntry.level = -1) ∧
    (s.queue = [] → s.batch.length < 99 →
      (workerRecv (syncStep cfg s)).batch = s.batch ++ [sentinelEntry] ∧
      (workerRecv (syncStep cfg s)).totalLogs = s.totalLogs + 1 ∧
      (workerTick (workerRecv (syncStep cfg s))).sink =
        s.sink ++ (s.batch ++ [sentinelEntry])) := by
  constructor
  · exact ⟨by simp [syncStep, hq], rfl⟩
  · intro hqe hbl
    have hcap : 0 < cfg.cap := by
      rw [hqe] at hq
      simpa using hq
    have hb99 : ¬ (99 ≤ s.batch.length) := by omega
    have hbne : ((s.batch ++ [sentinelEntry]).isEmpty) = false := by
      cases s.batch <;> rfl
    refine ⟨?_, ?_, ?_⟩ <;>
      simp [syncStep, workerRecv, workerTick, hqe, hcap, hwd, hb99, hbne]

/-- Witness for C10 at the initial state of the capacity-10 dispatcher. -/
theorem C10_sync_sentinel_through_data_channel_witness :
    (initAsyncState.workerDone = false ∧
      initAsyncState.queue.length < c1Cfg.cap) ∧
    (workerTick (workerRecv (syncStep c1Cfg initAsyncState))).sink =
      initAsyncState.sink ++ (initAsyncState.batch ++ [sentinelEntry]) :=
  ⟨⟨rfl, by decide⟩,
   (((C10_sync_sentinel_through_data_channel c1Cfg initAsyncState rfl
      (by decide)).2 rfl (by decide)).2.2)⟩

/- ### C9: write/hook failures on the facade log path -/

/-- C9 counterexample: a `CoreLogger.log` call in which a fired hook's
`Fire` fails AND the writer fails surfaces nothing to the caller — but also
increments NO error counter: `CoreLogger` has no metrics field and discards
both errors, so "every such failure increments an error counter" is false
on the facade path the claim cites. -/
theorem C9_counterexample_corelog_failure_uncounted :
    (coreLog 0 LevelInfo [] false "" [⟨[], true⟩] true LevelInfo "m" []).hookFires = 1 ∧
    (coreLog 0 LevelInfo [] false "" [⟨[], true⟩] true LevelInfo "m" []).errorIncs = 0 ∧
    (coreLog 0 LevelInfo [] false "" [⟨[], true⟩] true LevelInfo "m" []).callerErr = none := by
  decide

/-- C9 amended: writer and hook failures are never surfaced to the caller
of `Debug/Info/Warn/Error/Fatal` (both `log` methods return nothing);
`AdvancedLogger` with metrics enabled increments the error counter once per
failing fired hook and once for a failing write, but `CoreLogger.log`
discards all such failures without counting, and `AdvancedLogger` without
metrics counts nothing either. -/
theorem C9_failures_silent_and_counted_only_with_metrics
    (now : Nat) (thr : LogLevel) (base : FieldMap) (cflag : Bool) (cstr : String)
    (filt samp : Option (LogEntry → Bool)) (mOn : Bool) (hooks : List HookB)
    (wf : Bool) (lvl : LogLevel) (msg : String) (mf : FieldMap)
    (hlvl : ¬ lvl < thr) :
    (coreLog now thr base cflag cstr hooks wf lvl msg mf).callerErr = none ∧
    (coreLog now thr base cflag cstr hooks wf lvl msg mf).errorIncs = 0 ∧
    (advancedLog now thr base cflag cstr filt samp mOn hooks wf lvl msg mf).callerErr
      = none ∧
    (advancedLog now thr base cflag cstr none none true hooks wf lvl msg mf).errorIncs
      = (hooks.filter (fun hk => shouldFireHook hk.levels lvl)).countP
          (fun hk => hk.fireErr) + (if wf then 1 else 0) ∧
    (advancedLog now thr base cflag cstr none none false hooks wf lvl msg mf).errorIncs
      = 0 := by
  refine ⟨?_, ?_, ?_, ?_, ?_⟩
  · unfold coreLog
    split <;> rfl
  · unfold coreLog
    split <;> rfl
  · simp [advancedLog, apply_ite LogOutcome.callerErr]
  · simp [advancedLog, hlvl]
  · simp [advancedLog, hlvl]

/-- Witness for C9 at a concrete failing hook and failing writer. -/
theorem C9_failures_silent_and_counted_only_with_metrics_witness :
    (¬ LevelInfo < LevelInfo) ∧
    (advancedLog 0 LevelInfo [] false "" none none true [⟨[], true⟩] true
        LevelInfo "m" []).errorIncs
      = (List.countP (fun hk => hk.fireErr)
          (List.filter (fun hk => shouldFireHook hk.levels LevelInfo)
            ([⟨[], true⟩] : List HookB))) + (if true then 1 else 0) :=
  ⟨by decide,
   (C9_failures_silent_and_counted_only_with_metrics 0 LevelInfo [] false ""
      none none true [⟨[], true⟩] true LevelInfo "m" [] (by decide)).2.2.2.1⟩

/- ### C7: WithField isolation -/

/-- C7: deriving `d := l.WithField k v` shares the writer, level, formatter,
hook list and caller flag, but allocates a fresh field-map object: the
parent's map object and its contents are untouched; entries subsequently
logged through the parent (whose call-site fields are `nil`) never carry
the freshly added key `k`; entries logged through the derived logger carry
`k ↦ v` plus every one of the parent's base fields; and an in-place
mutation of either logger's map object is never observable through the
other (they are distinct heap cells).  `WithFields` allocates a fresh cell
the same way. -/
theorem C7_withField_isolation (h : Heap) (l : CoreLoggerRef) (k : String)
    (v : GoValue) (hv : l.fieldsRef < h.maps.length)
    (hfresh : mapLookup (h.getMap l.fieldsRef) k = none) :
    ((l.WithField h k v).2.writer = l.writer ∧
     (l.WithField h k v).2.hooks = l.hooks ∧
     (l.WithField h k v).2.level = l.level ∧
     (l.WithField h k v).2.formatter = l.formatter ∧
     (l.WithField h k v).2.caller = l.caller) ∧
    (l.WithField h k v).2.fieldsRef ≠ l.fieldsRef ∧
    (l.WithField h k v).1.getMap l.fieldsRef = h.getMap l.fieldsRef ∧
    mapLookup (logEntryFields (l.WithField h k v).1 l []) k = none ∧
    (mapLookup (logEntryFields (l.WithField h k v).1 (l.WithField h k v).2 []) k
        = some v ∧
     ∀ k2, k2 ≠ k →
       mapLookup (logEntryFields (l.WithField h k v).1 (l.WithField h k v).2 []) k2
         = mapLookup (h.getMap l.fieldsRef) k2) ∧
    (∀ m : FieldMap,
      ((l.WithField h k v).1.setMap l.fieldsRef m).getMap (l.WithField h k v).2.fieldsRef
        = (l.WithField h k v).1.getMap (l.WithField h k v).2.fieldsRef ∧
      ((l.WithField h k v).1.setMap (l.WithField h k v).2.fieldsRef m).getMap l.fieldsRef
        = (l.WithField h k v).1.getMap l.fieldsRef) ∧
    (∀ fs : FieldMap, (l.WithFields h fs).2.writer = l.writer ∧
      (l.WithFields h fs).2.hooks = l.hooks ∧
      (l.WithFields h fs).2.fieldsRef ≠ l.fieldsRef) := by
  have hr2 : (l.WithField h k v).2.fieldsRef = h.maps.length := rfl
  have hne : (l.WithField h k v).2.fieldsRef ≠ l.fieldsRef := by
    rw [hr2]
    omega
  have hold : (l.WithField h k v).1.getMap l.fieldsRef = h.getMap l.fieldsRef :=
    getMap_alloc_old h _ l.fieldsRef hv
  have hnew : (l.WithField h k v).1.getMap (l.WithField h k v).2.fieldsRef
      = mapInsert (h.getMap l.fieldsRef) k v :=
    getMap_alloc_new h _
  refine ⟨⟨rfl, rfl, rfl, rfl, rfl⟩, hne, hold, ?_, ⟨?_, ?_⟩, ?_, ?_⟩
  · show mapLookup (mapUnion (mapCopy ((l.WithField h k v).1.getMap l.fieldsRef)) []) k
      = none
    rw [mapUnion_nil, mapCopy_eq, hold]
    exact hfresh
  · show mapLookup (mapUnion (mapCopy ((l.WithField h k v).1.getMap
        (l.WithField h k v).2.fieldsRef)) []) k = some v
    rw [mapUnion_nil, mapCopy_eq, hnew]
    exact mapLookup_insert_self _ k v
  · intro k2 hk2
    show mapLookup (mapUnion (mapCopy ((l.WithField h k v).1.getMap
        (l.WithField h k v).2.fieldsRef)) []) k2 = mapLookup (h.getMap l.fieldsRef) k2
    rw [mapUnion_nil, mapCopy_eq, hnew]
    exact mapLookup_insert_ne _ k k2 v hk2
  · intro m
    exact ⟨getMap_set_ne _ l.fieldsRef _ m (fun he => hne he.symm),
           getMap_set_ne _ _ l.fieldsRef m hne⟩
  · intro fs
    refine ⟨rfl, rfl, ?_⟩
    show h.maps.length ≠ l.fieldsRef
    omega

/-- Witness for C7: a parent logger whose map object (cell 0) holds
`"app" ↦ "spoor"`, derived with `"user" ↦ 42`. -/
theorem C7_withField_isolation_witness :
    (({ maps := [[("app", GoValue.vstr "spoor")]] } : Heap).maps.length > 0 ∧
      mapLookup (({ maps := [[("app", GoValue.vstr "spoor")]] } : Heap).getMap 0)
        "user" = none) ∧
    mapLookup (logEntryFields
      ((CoreLoggerRef.WithField { maps := [[("app", GoValue.vstr "spoor")]] }
        ⟨1, 2, 1, [5], 0, true⟩ "user" (GoValue.vint 42)).1)
      ⟨1, 2, 1, [5], 0, true⟩ []) "user" = none :=
  ⟨⟨by decide, by decide⟩,
   (C7_withField_isolation { maps := [[("app", GoValue.vstr "spoor")]] }
      ⟨1, 2, 1, [5], 0, true⟩ "user" (GoValue.vint 42) (by decide)
      (by decide)).2.2.2.1⟩

end Spoor
